import Mathlib

/-!
Verification of the sample physician scheduler.

The program builds a CP-SAT model over a boolean assignment grid
`shifts[(p, d, s)]` for 10 physicians, 7 days and 3 shifts, posts six
constraint families, hands a quadratic fairness objective to the solver,
and decodes the solver result into a per-day/per-shift roster.

We embed the grid as a function `Assignment : ℕ → ℕ → ℕ → ℕ` (physician,
day, shift ↦ 0/1 value) and each posted constraint family as a predicate
mirroring the loops of `main` in `src/sample_physician_scheduler.py`.
-/

abbrev numPhysicians : ℕ := 10

abbrev numShifts : ℕ := 3

abbrev numDays : ℕ := 7

/-- A candidate valuation of the grid: the value of `shifts[(p, d, s)]`. -/
abbrev Assignment := ℕ → ℕ → ℕ → ℕ

/-- `sum(shifts[(p, d, s)] for p in all_physicians)`. -/
def physSum (a : Assignment) (d s : ℕ) : ℕ :=
  ∑ p ∈ Finset.range numPhysicians, a p d s

/-- `sum(shifts[(p, d, s)] for s in all_shifts)`. -/
def shiftSum (a : Assignment) (p d : ℕ) : ℕ :=
  ∑ s ∈ Finset.range numShifts, a p d s

/-- `night_shifts[p] = sum(shifts[(p, d, 2)] for d in all_days)`. -/
def nightShiftCount (a : Assignment) (p : ℕ) : ℕ :=
  ∑ d ∈ Finset.range numDays, a p d 2

/-- `total_shifts[p] = sum(shifts[(p, d, s)] for d in all_days for s in all_shifts)`. -/
def totalShiftCount (a : Assignment) (p : ℕ) : ℕ :=
  ∑ d ∈ Finset.range numDays, ∑ s ∈ Finset.range numShifts, a p d s

/-- Every grid variable is a `NewBoolVar`, i.e. its value is 0 or 1. -/
def boolGrid (a : Assignment) : Prop :=
  ∀ p < numPhysicians, ∀ d < numDays, ∀ s < numShifts, a p d s ≤ 1

/-- Constraint family 1 (coverage): for every day, every shift has
physician-sum ≥ 1, and shifts 0 and 1 additionally have sum ≥ 2. -/
def coverageConstraints (a : Assignment) : Prop :=
  ∀ d < numDays,
    (∀ s < numShifts, 1 ≤ physSum a d s) ∧ 2 ≤ physSum a d 0 ∧ 2 ≤ physSum a d 1

/-- Constraint family 2a (one shift per physician per day). -/
def oneShiftPerDay (a : Assignment) : Prop :=
  ∀ p < numPhysicians, ∀ d < numDays, shiftSum a p d ≤ 1

/-- Constraint family 2b (rest): posted only when `d < num_days - 1`;
the successor day index is computed as `(d+1) % 7` as in the source. -/
def restConstraints (a : Assignment) : Prop :=
  ∀ p < numPhysicians, ∀ d < numDays,
    d < numDays - 1 → a p d 2 + a p ((d + 1) % 7) 0 ≤ 1

/-- The pairs `(p1, p2)` for which the fairness equality is posted:
`for p1 in all_physicians: for p2 in all_physicians: if p1 < p2`. -/
def fairnessPairs : List (ℕ × ℕ) :=
  (List.range numPhysicians).flatMap (fun p1 =>
    ((List.range numPhysicians).filter (fun p2 => p1 < p2)).map (fun p2 => (p1, p2)))

/-- Constraint family 3 (fairness): `night_shifts[p1] == night_shifts[p2]`
for every posted pair. -/
def nightFairness (a : Assignment) : Prop :=
  ∀ pr ∈ fairnessPairs, nightShiftCount a pr.1 = nightShiftCount a pr.2

/-- Constraint family 4 (senior physicians): physicians 8 and 9 never work
the night shift. -/
def seniorRules (a : Assignment) : Prop :=
  ∀ d < numDays, a 8 d 2 = 0 ∧ a 9 d 2 = 0

/-- Constraint family 5 (weekend): Saturday (day 5) and Sunday (day 6)
assignments coincide. -/
def weekendRules (a : Assignment) : Prop :=
  ∀ p < numPhysicians, ∀ s < numShifts, a p 5 s = a p 6 s

/-- The full posted constraint set of the model. -/
def satisfiesModel (a : Assignment) : Prop :=
  boolGrid a ∧ coverageConstraints a ∧ oneShiftPerDay a ∧ restConstraints a ∧
    nightFairness a ∧ seniorRules a ∧ weekendRules a

/-- The objective expression handed to `model.Minimize`: the sum over the
double loop with guard `p1 < p2` of `(t1 - t2) * (t1 - t2)`. -/
def objectiveExpr (a : Assignment) : ℤ :=
  ∑ p1 ∈ Finset.range numPhysicians, ∑ p2 ∈ Finset.range numPhysicians,
    if p1 < p2 then
      ((totalShiftCount a p1 : ℤ) - (totalShiftCount a p2 : ℤ)) *
        ((totalShiftCount a p1 : ℤ) - (totalShiftCount a p2 : ℤ))
    else 0

/-- Spec-side objective: the sum over all unordered pairs `p1 < p2` of the
squared difference of total shift counts. -/
def sumSquaredPairDiffs (a : Assignment) : ℤ :=
  ∑ pr ∈ (Finset.range numPhysicians ×ˢ Finset.range numPhysicians).filter
      (fun pr => pr.1 < pr.2),
    ((totalShiftCount a pr.1 : ℤ) - (totalShiftCount a pr.2 : ℤ)) ^ 2

/-- Spec-side approximation mentioned for contrast: the sum over unordered
pairs of the absolute difference of total shift counts. -/
def sumAbsPairDiffs (a : Assignment) : ℤ :=
  ∑ pr ∈ (Finset.range numPhysicians ×ˢ Finset.range numPhysicians).filter
      (fun pr => pr.1 < pr.2),
    |(totalShiftCount a pr.1 : ℤ) - (totalShiftCount a pr.2 : ℤ)|

/-- The CP-SAT solver status values compared against in `main`. -/
inductive CpSolverStatus where
  | unknown : CpSolverStatus
  | modelInvalid : CpSolverStatus
  | feasible : CpSolverStatus
  | infeasible : CpSolverStatus
  | optimal : CpSolverStatus
deriving DecidableEq

/-- The physicians printed for one day/shift cell: those `p` with
`solver.Value(shifts[(p, d, s)]) == 1`, printed as `P{p+1}`. -/
def renderShift (value : Assignment) (d s : ℕ) : List String :=
  ((List.range numPhysicians).filter (fun p => value p d s = 1)).map
    (fun p => "P" ++ toString (p + 1))

/-- The schedule printed on success: day label `d+1`, then per shift the
label `s+1` and the list of assigned physicians. -/
def renderSchedule (value : Assignment) : List (ℕ × List (ℕ × List String)) :=
  (List.range numDays).map (fun d =>
    (d + 1, (List.range numShifts).map (fun s => (s + 1, renderShift value d s))))

/-- The structured result emitted by the decoding branch of `main`. -/
inductive Report where
  | noSolution : Report
  | schedule : List (ℕ × List (ℕ × List String)) → Report
deriving DecidableEq

/-- The decoding branch of `main`: read variable values and print the
roster only when the status is OPTIMAL or FEASIBLE, otherwise report
"No solution found." without touching any variable. -/
def decodeResult (status : CpSolverStatus) (value : Assignment) : Report :=
  if status = CpSolverStatus.optimal ∨ status = CpSolverStatus.feasible then
    Report.schedule (renderSchedule value)
  else
    Report.noSolution

/-- The all-zero valuation of the grid. -/
def zeroA : Assignment := fun _ _ _ => 0

/-- The all-one valuation of the grid. -/
def allOnesA : Assignment := fun _ _ _ => 1

/-- A valuation where exactly the non-senior physicians work everything. -/
def nonSeniorOnesA : Assignment := fun q _ _ => if q = 8 ∨ q = 9 then 0 else 1

/-- A valuation working day 6's night shift and day 0's morning shift. -/
def wrapPairA : Assignment :=
  fun _ d s => if (d = 6 ∧ s = 2) ∨ (d = 0 ∧ s = 0) then 1 else 0

/-- A valuation where only physician 0 works, every day and shift. -/
def onlyZeroA : Assignment := fun p _ _ => if p = 0 then 1 else 0

lemma mem_fairnessPairs (p1 p2 : ℕ) :
    (p1, p2) ∈ fairnessPairs ↔ p1 < numPhysicians ∧ p2 < numPhysicians ∧ p1 < p2 := by
  simp only [fairnessPairs, List.mem_flatMap, List.mem_map, List.mem_filter,
    List.mem_range, decide_eq_true_eq, Prod.mk.injEq]
  constructor
  · rintro ⟨x, hx, y, ⟨hy, hlt⟩, rfl, rfl⟩
    exact ⟨hx, hy, hlt⟩
  · rintro ⟨h1, h2, h3⟩
    exact ⟨p1, h1, p2, ⟨h2, h3⟩, rfl, rfl⟩

lemma nightShiftCount_eq_zero {a : Assignment}
    (hfair : nightFairness a) (hsen : seniorRules a) :
    ∀ p < numPhysicians, nightShiftCount a p = 0 := by
  have h8 : nightShiftCount a 8 = 0 :=
    Finset.sum_eq_zero (fun d hd => (hsen d (Finset.mem_range.mp hd)).1)
  have h9 : nightShiftCount a 9 = 0 :=
    Finset.sum_eq_zero (fun d hd => (hsen d (Finset.mem_range.mp hd)).2)
  intro p hp
  rcases lt_or_ge p 8 with hlt | hge
  · exact (hfair (p, 8)
      ((mem_fairnessPairs p 8).mpr ⟨(by omega : p < 10), (by norm_num : (8:ℕ) < 10), hlt⟩)).trans h8
  · have hp10 : p < 10 := hp
    interval_cases p
    · exact h8
    · exact h9

/-- C1: the posted constraint set of the fixed configuration is
unsatisfiable: no 0/1 valuation of the grid satisfies all posted
constraints, because the pairwise night-fairness equalities together with
the night exclusions of physicians 8 and 9 force every night-shift count
to 0, contradicting night-shift coverage. -/
theorem posted_constraints_unsatisfiable :
    ∀ a : Assignment, satisfiesModel a ↔ False := by
  intro a
  constructor
  · rintro ⟨_, hcov, _, _, hfair, hsen, _⟩
    have hz : ∀ p < numPhysicians, nightShiftCount a p = 0 :=
      nightShiftCount_eq_zero hfair hsen
    have hvar : ∀ p < numPhysicians, a p 0 2 = 0 := by
      intro p hp
      have hle : a p 0 2 ≤ nightShiftCount a p :=
        Finset.single_le_sum (f := fun d => a p d 2)
          (fun i _ => Nat.zero_le _) (Finset.mem_range.mpr (by norm_num))
      have h0 := hz p hp
      omega
    have hsum : physSum a 0 2 = 0 :=
      Finset.sum_eq_zero (fun p hp => hvar p (Finset.mem_range.mp hp))
    have hone : 1 ≤ physSum a 0 2 :=
      (hcov 0 (by norm_num)).1 2 (by norm_num)
    omega
  · exact fun h => h.elim

instance (a : Assignment) : Decidable (boolGrid a) := by
  unfold boolGrid; infer_instance

instance (a : Assignment) : Decidable (coverageConstraints a) := by
  unfold coverageConstraints; infer_instance

instance (a : Assignment) : Decidable (oneShiftPerDay a) := by
  unfold oneShiftPerDay; infer_instance

instance (a : Assignment) : Decidable (restConstraints a) := by
  unfold restConstraints; infer_instance

instance (a : Assignment) : Decidable (nightFairness a) := by
  unfold nightFairness; infer_instance

instance (a : Assignment) : Decidable (seniorRules a) := by
  unfold seniorRules; infer_instance

instance (a : Assignment) : Decidable (weekendRules a) := by
  unfold weekendRules; infer_instance

lemma physSum_eq_card {a : Assignment} (hb : boolGrid a) {d s : ℕ}
    (hd : d < numDays) (hs : s < numShifts) :
    physSum a d s = ((Finset.range numPhysicians).filter (fun p => a p d s = 1)).card := by
  rw [physSum, Finset.card_filter]
  refine Finset.sum_congr rfl (fun p hp => ?_)
  have h1 := hb p (Finset.mem_range.mp hp) d hd s hs
  rcases Nat.le_one_iff_eq_zero_or_eq_one.mp h1 with h | h <;> simp [h]

/-- C2: under the posted coverage constraints (and 0/1 grid values), for
every day and shift the number of physicians assigned there is at least 1,
and at least 2 for the peak shifts 0 and 1. -/
theorem coverage_counts (a : Assignment) (hb : boolGrid a) (hc : coverageConstraints a) :
    ∀ d < numDays, ∀ s < numShifts,
      1 ≤ ((Finset.range numPhysicians).filter (fun p => a p d s = 1)).card ∧
      ((s = 0 ∨ s = 1) →
        2 ≤ ((Finset.range numPhysicians).filter (fun p => a p d s = 1)).card) := by
  intro d hd s hs
  constructor
  · rw [← physSum_eq_card hb hd hs]
    exact (hc d hd).1 s hs
  · rintro (rfl | rfl)
    · rw [← physSum_eq_card hb hd hs]
      exact (hc d hd).2.1
    · rw [← physSum_eq_card hb hd hs]
      exact (hc d hd).2.2

theorem coverage_counts_witness :
    (boolGrid allOnesA ∧ coverageConstraints allOnesA) ∧
      (1 ≤ ((Finset.range numPhysicians).filter (fun p => allOnesA p 0 0 = 1)).card ∧
        (((0:ℕ) = 0 ∨ (0:ℕ) = 1) →
          2 ≤ ((Finset.range numPhysicians).filter (fun p => allOnesA p 0 0 = 1)).card)) :=
  ⟨⟨by decide, by decide⟩,
    coverage_counts allOnesA (by decide) (by decide) 0 (by decide) 0 (by decide)⟩

/-- C3: the fairness constraints force equal night-shift counts for every
pair of physicians, and the posted pair set is exactly all unordered pairs
`p1 < p2` of the 10 physicians, not merely consecutive ones. -/
theorem night_fairness_all_pairs :
    (∀ a : Assignment, nightFairness a →
      ∀ p1 < numPhysicians, ∀ p2 < numPhysicians, p1 < p2 →
        nightShiftCount a p1 = nightShiftCount a p2) ∧
    (∀ p1 p2 : ℕ,
      (p1, p2) ∈ fairnessPairs ↔ p1 < numPhysicians ∧ p2 < numPhysicians ∧ p1 < p2) := by
  constructor
  · intro a hf p1 h1 p2 h2 h12
    exact hf (p1, p2) ((mem_fairnessPairs p1 p2).mpr ⟨h1, h2, h12⟩)
  · exact mem_fairnessPairs

theorem night_fairness_all_pairs_witness :
    nightFairness zeroA ∧ nightShiftCount zeroA 0 = nightShiftCount zeroA 1 :=
  ⟨by decide,
    night_fairness_all_pairs.1 zeroA (by decide) 0 (by decide) 1 (by decide) (by decide)⟩

/-- C4: the senior-physician constraints force a zero night assignment for
physicians 8 and 9 on every day, and no other physician's night variable
is forced to 0 by this family: any other index can work every night shift
while the family is satisfied. -/
theorem senior_exclusion_exact :
    (∀ a : Assignment, seniorRules a → ∀ p, (p = 8 ∨ p = 9) → ∀ d < numDays, a p d 2 = 0) ∧
    (∀ p < numPhysicians, p ≠ 8 → p ≠ 9 →
      ∃ a : Assignment, boolGrid a ∧ seniorRules a ∧ ∀ d < numDays, a p d 2 = 1) := by
  constructor
  · rintro a hs p (rfl | rfl) d hd
    · exact (hs d hd).1
    · exact (hs d hd).2
  · intro p _ h8 h9
    refine ⟨nonSeniorOnesA, by decide, by decide, fun d _ => ?_⟩
    simp [nonSeniorOnesA, h8, h9]

theorem senior_exclusion_exact_witness :
    (seniorRules zeroA ∧ zeroA 8 0 2 = 0) ∧
      ∃ a : Assignment, boolGrid a ∧ seniorRules a ∧ ∀ d < numDays, a 0 d 2 = 1 :=
  ⟨⟨by decide, senior_exclusion_exact.1 zeroA (by decide) 8 (Or.inl rfl) 0 (by decide)⟩,
    senior_exclusion_exact.2 0 (by decide) (by decide) (by decide)⟩

/-- C5: the rest constraints bound `a p d 2 + a p ((d+1) % 7) 0` by 1 for
every day `d < 6`, and no constraint links day 6's night shift to day 0's
morning shift: a valuation working both still satisfies the family. -/
theorem rest_constraint_guard :
    (∀ a : Assignment, restConstraints a →
      ∀ p < numPhysicians, ∀ d, d < numDays - 1 → a p d 2 + a p ((d + 1) % 7) 0 ≤ 1) ∧
    (∃ a : Assignment, boolGrid a ∧ restConstraints a ∧ a 0 6 2 = 1 ∧ a 0 0 0 = 1) := by
  constructor
  · intro a hr p hp d hd
    exact hr p hp d (by omega) hd
  · exact ⟨wrapPairA, by decide, by decide, by decide, by decide⟩

theorem rest_constraint_guard_witness :
    restConstraints zeroA ∧ zeroA 0 0 2 + zeroA 0 ((0 + 1) % 7) 0 ≤ 1 :=
  ⟨by decide, rest_constraint_guard.1 zeroA (by decide) 0 (by decide) 0 (by decide)⟩

/-- C6: the weekend constraints force every physician's Saturday (day 5)
and Sunday (day 6) assignments to coincide on every shift. -/
theorem weekend_mirroring (a : Assignment) (hw : weekendRules a) :
    ∀ p < numPhysicians, ∀ s < numShifts, a p 5 s = a p 6 s := hw

theorem weekend_mirroring_witness :
    weekendRules allOnesA ∧ allOnesA 0 5 0 = allOnesA 0 6 0 :=
  ⟨by decide, weekend_mirroring allOnesA (by decide) 0 (by decide) 0 (by decide)⟩

/-- C7: the one-shift-per-day constraints bound every physician's per-day
shift sum by 1, and a physician may work zero shifts on a day: the
all-zero valuation satisfies the family. -/
theorem one_shift_per_day_policy :
    (∀ a : Assignment, oneShiftPerDay a →
      ∀ p < numPhysicians, ∀ d < numDays, ∑ s ∈ Finset.range numShifts, a p d s ≤ 1) ∧
    (∃ a : Assignment, boolGrid a ∧ oneShiftPerDay a ∧
      ∀ p < numPhysicians, ∀ d < numDays, ∑ s ∈ Finset.range numShifts, a p d s = 0) := by
  constructor
  · intro a h1 p hp d hd
    exact h1 p hp d hd
  · exact ⟨zeroA, by decide, by decide, by decide⟩

theorem one_shift_per_day_policy_witness :
    oneShiftPerDay zeroA ∧ ∑ s ∈ Finset.range numShifts, zeroA 0 0 s ≤ 1 :=
  ⟨by decide, one_shift_per_day_policy.1 zeroA (by decide) 0 (by decide) 0 (by decide)⟩

/-- C8: the minimization objective equals the sum over all unordered pairs
`p1 < p2` of the squared difference of total shift counts, and it differs
from the sum of absolute pairwise differences on a concrete valuation. -/
theorem objective_is_sum_squared_pair_diffs :
    (∀ a : Assignment, objectiveExpr a = sumSquaredPairDiffs a) ∧
      objectiveExpr onlyZeroA ≠ sumAbsPairDiffs onlyZeroA := by
  constructor
  · intro a
    rw [objectiveExpr, sumSquaredPairDiffs, Finset.sum_filter, Finset.sum_product]
    refine Finset.sum_congr rfl (fun p1 _ => Finset.sum_congr rfl (fun p2 _ => ?_))
    by_cases h : p1 < p2 <;> simp [h, pow_two]
  · decide

/-- C9: on any status other than OPTIMAL or FEASIBLE the decoder emits the
single no-solution report, and its output does not depend on the variable
valuation: no variable value is read. -/
theorem decoder_non_feasible_no_read (st : CpSolverStatus)
    (h1 : st ≠ CpSolverStatus.optimal) (h2 : st ≠ CpSolverStatus.feasible) :
    ∀ v v' : Assignment,
      decodeResult st v = Report.noSolution ∧ decodeResult st v = decodeResult st v' := by
  intro v v'
  constructor <;> simp [decodeResult, h1, h2]

theorem decoder_non_feasible_no_read_witness :
    (CpSolverStatus.infeasible ≠ CpSolverStatus.optimal ∧
      CpSolverStatus.infeasible ≠ CpSolverStatus.feasible) ∧
      decodeResult CpSolverStatus.infeasible zeroA = Report.noSolution ∧
      decodeResult CpSolverStatus.infeasible zeroA =
        decodeResult CpSolverStatus.infeasible allOnesA :=
  ⟨⟨by decide, by decide⟩,
    decoder_non_feasible_no_read CpSolverStatus.infeasible (by decide) (by decide)
      zeroA allOnesA⟩

/-- C10: on an OPTIMAL or FEASIBLE status, the decoder emits the schedule
with days in ascending order labelled `d+1`, within each day the shifts in
ascending order labelled `s+1`, and within each shift exactly the
physicians whose variable resolved to 1, in ascending identifier order,
labelled `P{p+1}`. -/
theorem decoder_schedule_order (st : CpSolverStatus) (v : Assignment)
    (_hv : ∀ p < numPhysicians, ∀ d < numDays, ∀ s < numShifts, v p d s ≤ 1)
    (hst : st = CpSolverStatus.optimal ∨ st = CpSolverStatus.feasible) :
    ∃ rows, decodeResult st v = Report.schedule rows ∧
      rows.map Prod.fst = (List.range numDays).map (fun d => d + 1) ∧
      ∀ d < numDays, ∃ shiftRows, rows[d]? = some (d + 1, shiftRows) ∧
        shiftRows.map Prod.fst = (List.range numShifts).map (fun s => s + 1) ∧
        ∀ s < numShifts, ∃ names, shiftRows[s]? = some (s + 1, names) ∧
          ∃ ps : List ℕ, names = ps.map (fun p => "P" ++ toString (p + 1)) ∧
            List.Sorted (· < ·) ps ∧
            ∀ p, p ∈ ps ↔ p < numPhysicians ∧ v p d s = 1 := by
  refine ⟨renderSchedule v, ?_, ?_, ?_⟩
  · rcases hst with h | h <;> simp [decodeResult, h]
  · simp [renderSchedule]
  · intro d hd
    refine ⟨(List.range numShifts).map (fun s => (s + 1, renderShift v d s)), ?_, ?_, ?_⟩
    · simp [renderSchedule, List.getElem?_range hd]
    · simp
    · intro s hs
      refine ⟨renderShift v d s, ?_, ?_⟩
      · simp [List.getElem?_range hs]
      · refine ⟨(List.range numPhysicians).filter (fun p => v p d s = 1), rfl, ?_, ?_⟩
        · exact (List.sorted_lt_range numPhysicians).filter _
        · intro p
          simp [List.mem_filter]

theorem decoder_schedule_order_witness :
    ∃ rows, decodeResult CpSolverStatus.optimal allOnesA = Report.schedule rows ∧
      rows.map Prod.fst = (List.range numDays).map (fun d => d + 1) ∧
      ∀ d < numDays, ∃ shiftRows, rows[d]? = some (d + 1, shiftRows) ∧
        shiftRows.map Prod.fst = (List.range numShifts).map (fun s => s + 1) ∧
        ∀ s < numShifts, ∃ names, shiftRows[s]? = some (s + 1, names) ∧
          ∃ ps : List ℕ, names = ps.map (fun p => "P" ++ toString (p + 1)) ∧
            List.Sorted (· < ·) ps ∧
            ∀ p, p ∈ ps ↔ p < numPhysicians ∧ allOnesA p d s = 1 :=
  decoder_schedule_order CpSolverStatus.optimal allOnesA (by decide) (Or.inl rfl)
